import Mathlib

/-!
Shallow embedding of `src/paperless-ngx-tag-exporter.py` and verification of
the spec's claims about it.  Python dictionaries are modelled as association
lists with Python's update semantics (insertion order kept, later assignment
to an existing key overwrites in place); machine floats of the currency path
are modelled as exact rationals (all inputs of interest are small decimal
digit strings, where Python float arithmetic is exact as well); HTTP traffic
is modelled by explicit response values handed to the embedded functions.
-/

namespace TagExporter

/-- Model of a Python runtime value as it appears in document data:
a string, an integer, or a float (modelled as an exact rational). -/
inductive Value
  | s (v : String)
  | i (v : Int)
  | q (v : ℚ)
deriving DecidableEq, Repr

/-- Python `str(value)` as used in f-string placeholders, for the value
shapes that occur in the embedded code paths (strings and integers;
float rendering is not relied on by any claim). -/
def Value.pyStr : Value → String
  | .s v => v
  | .i v => toString v
  | .q v => toString v

/-! ## Python dict as association list -/

/-- Python `d[k] = v` on an insertion-ordered dict: if the key is present its
value is overwritten in place, otherwise the pair is appended. -/
def dictSet {α β : Type} [BEq α] (d : List (α × β)) (k : α) (v : β) : List (α × β) :=
  if d.any (fun p => p.1 == k) then
    d.map (fun p => if p.1 == k then (k, v) else p)
  else d ++ [(k, v)]

/-- Python `d.get(k)` / `k in d`: first (and, under the `dictSet` discipline,
only) entry with the key. -/
def dictGet? {α β : Type} [BEq α] (d : List (α × β)) (k : α) : Option β :=
  (d.find? (fun p => p.1 == k)).map (fun p => p.2)

/-! ## format_currency (source lines 295-316) -/

/-- Numeric value of a decimal digit list, as Python `float` of a digit
string computes it (exact for the digit strings at hand). -/
def digitsToNat (l : List Char) : Nat :=
  l.foldl (fun acc c => acc * 10 + (c.toNat - 48)) 0

/-- Embedding of `format_currency`.  The source filters the digits out of the
raw string; with no digit left it returns the string `"0,00"`; otherwise it
converts the digit string to a number and divides by 100.  The source then
computes `locale.currency(value_float, grouping=True)` into `formatted_value`
but immediately overwrites that with the bare number
(`formatted_value = value_float`), so the function returns the unformatted
number, never a locale-formatted currency string. -/
def format_currency (value : String) : Value :=
  if (value.data.filter Char.isDigit).isEmpty then .s "0,00"
  else .q ((digitsToNat (value.data.filter Char.isDigit) : ℚ) / 100)

/-! ## Remote API model -/

/-- One JSON page of a paginated list endpoint: HTTP-level status of the
request that produced it, the `results` array, and the truthiness of the
`next` continuation link. -/
structure ApiPage (α : Type) where
  status : Nat
  results : List α
  next : Bool
deriving DecidableEq, Repr

/-- An HTTP response whose JSON body may fail to decode: `body = none`
models a `json.decoder.JSONDecodeError` raised by `response.json()`. -/
structure HttpResponse (α : Type) where
  status : Nat
  body : Option α
deriving DecidableEq, Repr

/-- A record of the `custom_fields` list endpoint: `id`, `name`,
`data_type`, and `extra_data.select_options`. -/
structure FieldRec where
  id : Nat
  name : String
  data_type : String
  select_options : List String
deriving DecidableEq, Repr

/-- Entry of `custom_fields_map`: the dict
`{"name": ..., "type": ..., "choices": ...}` built per field
(`ftype` embeds the dict key `"type"`). -/
structure FieldDef where
  name : String
  ftype : String
  choices : List (Nat × String)
deriving DecidableEq, Repr

/-- Python `enumerate(l)` starting at `n`. -/
def pyEnumerateFrom (n : Nat) : List String → List (Nat × String)
  | [] => []
  | x :: xs => (n, x) :: pyEnumerateFrom (n + 1) xs

/-- Python `enumerate(l)` as used to build `custom_field_choices_map`. -/
def pyEnumerate (l : List String) : List (Nat × String) :=
  pyEnumerateFrom 0 l

/-- The `custom_fields_map[field_id]` entry built for one field record:
name and type are copied, and for `data_type == "select"` the choices dict
maps each position to the option at that position (source lines 84-99). -/
def buildFieldDef (f : FieldRec) : FieldDef :=
  { name := f.name
    ftype := f.data_type
    choices := if f.data_type == "select" then pyEnumerate f.select_options else [] }

/-- The mapping accumulated from one `results` array of the
`custom_fields` endpoint. -/
def build_cf_map (recs : List FieldRec) : List (Nat × FieldDef) :=
  recs.foldl (fun m f => dictSet m f.id (buildFieldDef f)) []

/-- Failure modes of `get_custom_field_definitions`: a non-200 status, or a
body that fails to decode (`json.decoder.JSONDecodeError`); either one makes
the source print a distinct message and call `exit()`. -/
inductive LoadError
  | httpError (status : Nat)
  | jsonError
deriving DecidableEq, Repr

/-- Embedding of `get_custom_field_definitions` applied to the one response
it receives for its single `GET {url}/custom_fields/` request (source lines
68-109).  The source never reads the page's `next` link and never issues a
second request, so the returned map is built from this response alone. -/
def get_custom_field_definitions (resp : HttpResponse (ApiPage FieldRec)) :
    Except LoadError (List (Nat × FieldDef)) :=
  if resp.status == 200 then
    match resp.body with
    | some page => .ok (build_cf_map page.results)
    | none => .error .jsonError
  else .error (.httpError resp.status)

/-- The custom-field loader as invoked against a paginated remote
collection `svc` (page number to response): the source performs exactly one
request, for the first page. -/
def load_custom_fields (svc : Nat → HttpResponse (ApiPage FieldRec)) :
    Except LoadError (List (Nat × FieldDef)) :=
  get_custom_field_definitions (svc 1)

/-- A record of the `tags` list endpoint. -/
structure TagRec where
  id : Nat
  name : String
deriving DecidableEq, Repr

/-- The dict comprehension of source line 158:
`{tag["id"]: tag["name"] for tag in tags_response.json()["results"]}`. -/
def build_tag_dict (recs : List TagRec) : List (Nat × String) :=
  recs.foldl (fun d t => dictSet d t.id t.name) []

/-- The tag mapping as produced by `main` (source lines 151-165) against a
paginated remote collection: one `GET {url}/tags/` request; on status 200
with a well-formed body, the dict is built from that first page's `results`
alone (the `next` link is never consulted). -/
def load_tag_dict (svc : Nat → HttpResponse (ApiPage TagRec)) :
    Option (List (Nat × String)) :=
  let r := svc 1
  if r.status == 200 then r.body.map (fun pg => build_tag_dict pg.results)
  else none

/-! ## Document model and get_all_documents (source lines 47-64) -/

/-- A custom-field value attached to a document: the referenced field id
and the raw value. -/
structure CustomFieldValue where
  field : Nat
  value : Value
deriving DecidableEq, Repr

/-- A document as consumed by the export path: id, title, attached tag ids
in stored order, and the detailed record's custom-field values. -/
structure Doc where
  id : Int
  title : String
  tags : List Nat
  custom_fields : List CustomFieldValue
deriving DecidableEq, Repr

/-- Embedding of the `while True` loop of `get_all_documents`, starting at
`page` with `fuel` as an upper bound on iterations: each iteration requests
one page; a non-200 status breaks out returning what was accumulated; a 200
page is appended and the loop continues exactly when `next` is truthy.
Returns the accumulated documents together with the number of page
requests issued. -/
def get_all_documents_from (svc : Nat → ApiPage Doc) : Nat → Nat → List Doc × Nat
  | 0, _ => ([], 0)
  | fuel + 1, page =>
    let r := svc page
    if r.status != 200 then ([], 1)
    else if r.next then
      let rest := get_all_documents_from svc fuel (page + 1)
      (r.results ++ rest.1, rest.2 + 1)
    else (r.results, 1)

/-- Embedding of `get_all_documents`: the loop starts at page 1. -/
def get_all_documents (svc : Nat → ApiPage Doc) (fuel : Nat) : List Doc × Nat :=
  get_all_documents_from svc fuel 1

/-! ## Field resolution (source lines 211-232) -/

/-- Python `field_info["choices"].get(field_value, ...)`: the choices dict
has `int` keys, so only an integral raw value can hit an entry (a Python
`float` key compares equal to an `int` key when its value is integral). -/
def choiceGet (choices : List (Nat × String)) (v : Value) : Option String :=
  match v with
  | .i n => (choices.find? (fun p => ((p.1 : Int) == n))).map (fun p => p.2)
  | .q r => if r.den == 1 then (choices.find? (fun p => ((p.1 : Int) == r.num))).map (fun p => p.2) else none
  | .s _ => none

/-- Embedding of the per-value custom-field resolution of
`export_documents_by_tag` (source lines 213-232): the field definition is
looked up with fallbacks `name = "Feld <id>"` and `type = "string"`, then
the value is formatted by type: `monetary` through `format_currency`,
`select` through the choices dict with fallback `"Wert <value>"`, anything
else unchanged.  Returns the resolved column name and display value.
(The source would raise `TypeError` on a non-string monetary raw value;
that path carries the value through unchanged here and is relied on by no
claim.) -/
def resolveCF (cfMap : List (Nat × FieldDef)) (cf : CustomFieldValue) : String × Value :=
  match dictGet? cfMap cf.field with
  | none => ("Feld " ++ toString cf.field, cf.value)
  | some fd =>
    ( fd.name,
      if fd.ftype == "monetary" then
        match cf.value with
        | .s s => format_currency s
        | v => v
      else if fd.ftype == "select" then
        .s (match choiceGet fd.choices cf.value with
            | some label => label
            | none => "Wert " ++ cf.value.pyStr)
      else cf.value )

/-- The `custom_fields` dict accumulated for one document
(source lines 211-232). -/
def buildCustomFields (cfMap : List (Nat × FieldDef)) (cfs : List CustomFieldValue) :
    List (String × Value) :=
  cfs.foldl (fun d cf => dictSet d (resolveCF cfMap cf).1 (resolveCF cfMap cf).2) []

/-- Sentinel returned by `get_name_from_id` when the lookup request does
not answer 200 (source line 43). -/
def unknownSentinel : String := "Unbekannt"

/-- Embedding of `get_name_from_id` applied to the response of its single
lookup request: on 200 it returns the body's `name` (empty string when the
key is missing), otherwise the `"Unbekannt"` sentinel. -/
def get_name_from_id (resp : HttpResponse (Option String)) : String :=
  if resp.status == 200 then
    match resp.body with
    | some nameField => nameField.getD ""
    | none => ""
  else unknownSentinel

/-- Tag display resolution of the report row (source lines 241 and 244):
`tag_dict.get(tag_id, f"Tag {tag_id}")`. -/
def resolveTag (tagDict : List (Nat × String)) (tid : Nat) : String :=
  match dictGet? tagDict tid with
  | some n => n
  | none => "Tag " ++ toString tid

/-- The "Tags" cell: `", ".join(...)` over the document's tag ids in
stored order (source line 244). -/
def tagsDisplay (tagDict : List (Nat × String)) (tags : List Nat) : String :=
  String.intercalate ", " (tags.map (resolveTag tagDict))

/-- Embedding of the row dict literal of source lines 235-247 followed by
the `**custom_fields` merge.  Python evaluates the literal's duplicate
`"Tags"` key at its first position with its last value (both occurrences
are the same expression), then merges the custom-fields dict, which
overwrites colliding keys.  The resolved correspondent, document type,
storage path, and parsed date are passed in (each is the result of a
supporting call whose embedding is separate). -/
def buildRow (cfMap : List (Nat × FieldDef)) (tagDict : List (Nat × String)) (doc : Doc)
    (korr dtyp spath : String) (datum : Value) : List (String × Value) :=
  let base : List (String × Value) :=
    [("ID", .i doc.id), ("Titel", .s doc.title), ("Korrespondent", .s korr),
     ("Dokumenttyp", .s dtyp), ("Speicherpfad", .s spath),
     ("Tags", .s (tagsDisplay tagDict doc.tags)), ("Datum", datum)]
  (buildCustomFields cfMap doc.custom_fields).foldl (fun r kv => dictSet r kv.1 kv.2) base

/-! ## The preamble of main (source lines 146-175) -/

/-- The diagnostics that main's schema-loading phase can print, with the
data each one carries (source lines 101-106, 165, 171). -/
inductive Msg
  | cfHttp (status : Nat)
  | cfJson
  | tagsHttp (status : Nat)
  | tagNotFound (name : String)
deriving DecidableEq, Repr

/-- How a failing run of main's preamble terminates: an explicit `exit()`
call, an uncaught `NameError` (`tag_dict` never assigned after a failed
tags request), or an uncaught `JSONDecodeError` from
`tags_response.json()`. -/
inductive Halt
  | exited
  | nameError
  | uncaughtJson
deriving DecidableEq, Repr

/-- Python `str.lower()`, applied characterwise (this and Python's
lowering agree on the ASCII letters, the only case `tname.lower()`
exercises on the tag names at hand). -/
def pyLower (s : String) : String := ⟨s.data.map Char.toLower⟩

/-- The generator expression of source lines 168-169: first tag-dict entry
whose name equals the configured name case-insensitively. -/
def findTagId (tagDict : List (Nat × String)) (query : String) : Option Nat :=
  (tagDict.find? (fun p => pyLower p.2 == pyLower query)).map (fun p => p.1)

/-- Embedding of main from the custom-field load up to (but not including)
the `get_all_documents` call (source lines 146-175): load the custom-field
schema (printing and exiting on failure), request the tags page (a non-200
status prints a diagnostic but does not exit, so the following
`tag_dict.items()` raises `NameError`; a malformed body raises an uncaught
`JSONDecodeError` with nothing printed), then resolve the configured tag
name; Python's `if not tag_id` treats both `None` and the id `0` as
not found.  Returns the printed diagnostics and either the halt mode or the
data main proceeds with. -/
def runPreamble (cfResp : HttpResponse (ApiPage FieldRec))
    (tagsResp : HttpResponse (ApiPage TagRec)) (tagName : String) :
    List Msg × Except Halt (List (Nat × FieldDef) × List (Nat × String) × Nat) :=
  match get_custom_field_definitions cfResp with
  | .error (.httpError st) => ([.cfHttp st], .error .exited)
  | .error .jsonError => ([.cfJson], .error .exited)
  | .ok cfMap =>
    if tagsResp.status == 200 then
      match tagsResp.body with
      | none => ([], .error .uncaughtJson)
      | some pg =>
        let tagDict := build_tag_dict pg.results
        match findTagId tagDict tagName with
        | none => ([.tagNotFound tagName], .error .exited)
        | some tid =>
          if tid == 0 then ([.tagNotFound tagName], .error .exited)
          else ([], .ok (cfMap, tagDict, tid))
    else ([.tagsHttp tagsResp.status], .error .nameError)

/-- Main from the schema loads through the document fetch: documents are
requested only when the preamble succeeded.  The middle component counts
document-page requests issued (0 whenever the preamble halted the run). -/
def run_main (cfResp : HttpResponse (ApiPage FieldRec))
    (tagsResp : HttpResponse (ApiPage TagRec)) (tagName : String)
    (docSvc : Nat → ApiPage Doc) (fuel : Nat) :
    List Msg × Nat × Except Halt (List Doc) :=
  match runPreamble cfResp tagsResp tagName with
  | (msgs, .error h) => (msgs, 0, .error h)
  | (msgs, .ok _) =>
    let r := get_all_documents docSvc fuel
    (msgs, r.2, .ok r.1)

/-! ## Output-directory preparation (source lines 188-194) -/

/-- A pre-existing entry of the tag-scoped output directory: a plain file
or a subdirectory. -/
inductive FsEntry
  | file (name : String)
  | dir (name : String)
deriving DecidableEq, Repr

/-- Whether an entry is a plain file. -/
def FsEntry.isFile : FsEntry → Bool
  | .file _ => true
  | .dir _ => false

/-- The purge loop `for f in os.listdir(tag_directory): os.remove(...)`:
`os.remove` deletes a plain file but raises `IsADirectoryError` on a
directory, which nothing in the source catches. -/
def removeEntries : List FsEntry → Except String Unit
  | [] => .ok ()
  | .file _ :: rest => removeEntries rest
  | .dir n :: _ => .error ("IsADirectoryError: " ++ n)

/-- Embedding of the directory preparation of `export_documents_by_tag`
(source lines 188-194): with `pre = none` the directory did not exist and
is created empty (`os.makedirs`); otherwise every listed entry is removed
in turn, an uncaught error aborting the run.  On success the directory is
empty before any artifact is written. -/
def prepare_tag_directory (pre : Option (List FsEntry)) : Except String (List FsEntry) :=
  match pre with
  | some entries => (removeEntries entries).map (fun _ => [])
  | none => .ok []

/-! ## Artifact files (source lines 111-126 and 249-251) -/

/-- The output directory during a run: file name to file content, where the
content is identified by the id of the document whose data was written.
Writing is Python-`open(..., "w")` semantics: an existing file of that name
is overwritten, modelled by the dict update discipline. -/
def lookupFS (fs : List (String × Int)) (name : String) : Option Int :=
  dictGet? fs name

/-- Embedding of `export_pdf` (source lines 111-120): the binary artifact
path is `f"{doc_title}.pdf"`; the file is written only when the download
request answered 200 (`dlOk`), a failure being logged and skipped. -/
def export_pdf (fs : List (String × Int)) (doc : Doc) (dlOk : Bool) : List (String × Int) :=
  if dlOk then dictSet fs (doc.title ++ ".pdf") doc.id else fs

/-- Embedding of `export_json` (source lines 122-126): the metadata
artifact path is `f"{doc_title}.json"` and the write is unconditional. -/
def export_json (fs : List (String × Int)) (doc : Doc) : List (String × Int) :=
  dictSet fs (doc.title ++ ".json") doc.id

/-- One iteration of the document loop as far as artifact writes go
(source lines 202-203 and 249-251): documents not carrying the target tag
are skipped; a processed document first gets its binary artifact written
(download permitting), then its metadata artifact. -/
def exportStep (tagId : Nat) (dl : Doc → Bool) (fs : List (String × Int)) (doc : Doc) :
    List (String × Int) :=
  if tagId ∈ doc.tags then export_json (export_pdf fs doc (dl doc)) doc else fs

/-- The artifact files present after the document loop ran over `docs`
against the freshly purged (empty) directory. -/
def exportArtifacts (tagId : Nat) (docs : List Doc) (dl : Doc → Bool) : List (String × Int) :=
  docs.foldl (exportStep tagId dl) []

/-- The last document in processing order that carries the target tag and
bears the given title (the document whose artifact contents survive under
that title). -/
def lastMatch (tagId : Nat) (t : String) (docs : List Doc) : Option Doc :=
  docs.foldl (fun acc d => if tagId ∈ d.tags ∧ d.title = t then some d else acc) none

/-! ## Lemmas about the dict model -/

section DictLemmas

variable {α β : Type} [BEq α] [LawfulBEq α]

theorem find?_map_update_of_any (d : List (α × β)) (k : α) (v : β)
    (h : d.any (fun p => p.1 == k) = true) :
    (d.map (fun p => if p.1 == k then (k, v) else p)).find? (fun p => p.1 == k) =
      some (k, v) := by
  induction d with
  | nil => simp at h
  | cons p rest ih =>
    rw [List.map_cons]
    by_cases h1 : (p.1 == k) = true
    · rw [if_pos h1]
      exact List.find?_cons_of_pos (p := fun q : α × β => q.1 == k) _ (by simp)
    · have h1' : (p.1 == k) = false := by simpa using h1
      have hrest : rest.any (fun p => p.1 == k) = true := by
        simpa [List.any_cons, h1'] using h
      rw [if_neg h1, List.find?_cons_of_neg (p := fun q : α × β => q.1 == k) _ h1]
      exact ih hrest

theorem find?_append_single_of_not_any (d : List (α × β)) (k : α) (v : β)
    (h : d.any (fun p => p.1 == k) = false) :
    (d ++ [(k, v)]).find? (fun p => p.1 == k) = some (k, v) := by
  induction d with
  | nil =>
    rw [List.nil_append]
    exact List.find?_cons_of_pos (p := fun q : α × β => q.1 == k) _ (by simp)
  | cons p rest ih =>
    have h1 : (p.1 == k) = false := by
      by_contra hc
      simp only [Bool.not_eq_false] at hc
      simp [List.any_cons, hc] at h
    have hrest : rest.any (fun p => p.1 == k) = false := by
      simpa [List.any_cons, h1] using h
    rw [List.cons_append, List.find?_cons_of_neg (p := fun q : α × β => q.1 == k) _ (by simp [h1])]
    exact ih hrest

/-- Looking up the key just assigned yields the assigned value. -/
theorem dictGet?_dictSet_self (d : List (α × β)) (k : α) (v : β) :
    dictGet? (dictSet d k v) k = some v := by
  unfold dictSet dictGet?
  by_cases h : d.any (fun p => p.1 == k) = true
  · rw [if_pos h, find?_map_update_of_any d k v h]
    rfl
  · rw [if_neg h, find?_append_single_of_not_any d k v (by
      simp only [Bool.not_eq_true] at h
      exact h)]
    rfl

theorem find?_map_update_ne (d : List (α × β)) {k k' : α} (v : β) (h : k' ≠ k) :
    (d.map (fun p => if p.1 == k then (k, v) else p)).find? (fun p => p.1 == k') =
      d.find? (fun p => p.1 == k') := by
  induction d with
  | nil => rfl
  | cons p rest ih =>
    rw [List.map_cons]
    by_cases h1 : (p.1 == k) = true
    · have hp : p.1 = k := eq_of_beq h1
      have hk' : ¬ ((k, v).1 == k') = true := by
        simp only [beq_iff_eq]
        exact fun he => h (he ▸ rfl)
      have hp' : ¬ (p.1 == k') = true := by
        rw [hp]; exact hk'
      rw [if_pos h1, List.find?_cons_of_neg (p := fun q : α × β => q.1 == k') _ hk',
        List.find?_cons_of_neg (p := fun q : α × β => q.1 == k') _ hp']
      exact ih
    · rw [if_neg h1]
      by_cases h2 : (p.1 == k') = true
      · rw [List.find?_cons_of_pos (p := fun q : α × β => q.1 == k') _ h2,
          List.find?_cons_of_pos (p := fun q : α × β => q.1 == k') _ h2]
      · rw [List.find?_cons_of_neg (p := fun q : α × β => q.1 == k') _ h2,
          List.find?_cons_of_neg (p := fun q : α × β => q.1 == k') _ h2]
        exact ih

theorem find?_append_single_ne (d : List (α × β)) {k k' : α} (v : β) (h : k' ≠ k) :
    (d ++ [(k, v)]).find? (fun p => p.1 == k') = d.find? (fun p => p.1 == k') := by
  induction d with
  | nil =>
    have hk' : ¬ ((k, v).1 == k') = true := by
      simp only [beq_iff_eq]
      exact fun he => h (he ▸ rfl)
    rw [List.nil_append, List.find?_cons_of_neg (p := fun q : α × β => q.1 == k') _ hk']
  | cons p rest ih =>
    rw [List.cons_append]
    by_cases h2 : (p.1 == k') = true
    · rw [List.find?_cons_of_pos (p := fun q : α × β => q.1 == k') _ h2,
        List.find?_cons_of_pos (p := fun q : α × β => q.1 == k') _ h2]
    · rw [List.find?_cons_of_neg (p := fun q : α × β => q.1 == k') _ h2,
        List.find?_cons_of_neg (p := fun q : α × β => q.1 == k') _ h2]
      exact ih

/-- Assigning one key leaves the lookup of any other key unchanged. -/
theorem dictGet?_dictSet_ne (d : List (α × β)) {k k' : α} (v : β) (h : k' ≠ k) :
    dictGet? (dictSet d k v) k' = dictGet? d k' := by
  unfold dictSet dictGet?
  by_cases hany : d.any (fun p => p.1 == k) = true
  · rw [if_pos hany, find?_map_update_ne d v h]
  · rw [if_neg hany, find?_append_single_ne d v h]

/-- Assignment does not change the key sequence when the key is present,
and appends the key otherwise; either way key distinctness is kept. -/
theorem nodup_keys_dictSet (d : List (α × β)) (k : α) (v : β)
    (h : (d.map Prod.fst).Nodup) : ((dictSet d k v).map Prod.fst).Nodup := by
  unfold dictSet
  by_cases hany : d.any (fun p => p.1 == k) = true
  · rw [if_pos hany]
    have hkeys : (d.map (fun p => if p.1 == k then (k, v) else p)).map Prod.fst =
        d.map Prod.fst := by
      rw [List.map_map]
      apply List.map_congr_left
      intro p _
      by_cases h1 : (p.1 == k) = true
      · simp [Function.comp, h1, (eq_of_beq h1).symm]
      · simp [Function.comp, h1]
    rw [hkeys]; exact h
  · rw [if_neg hany, List.map_append]
    have hnotmem : k ∉ d.map Prod.fst := by
      intro hmem
      obtain ⟨p, hp, hpk⟩ := List.mem_map.mp hmem
      exact hany (List.any_eq_true.mpr ⟨p, hp, by simp [hpk]⟩)
    simp only [List.map_cons, List.map_nil]
    refine List.Nodup.append h (List.nodup_singleton k) ?_
    intro a ha hb
    rw [List.mem_singleton] at hb
    exact hnotmem (hb ▸ ha)

omit [LawfulBEq α] in
/-- Every entry after an assignment is an original entry or the assigned
pair. -/
theorem mem_dictSet {d : List (α × β)} {k : α} {v : β} {e : α × β}
    (h : e ∈ dictSet d k v) : e ∈ d ∨ e = (k, v) := by
  unfold dictSet at h
  by_cases hany : d.any (fun p => p.1 == k) = true
  · rw [if_pos hany] at h
    obtain ⟨p, hp, he⟩ := List.mem_map.mp h
    by_cases h1 : (p.1 == k) = true
    · right; rw [if_pos h1] at he; exact he.symm
    · left; rw [if_neg h1] at he; exact he ▸ hp
  · rw [if_neg hany] at h
    rcases List.mem_append.mp h with h' | h'
    · exact Or.inl h'
    · exact Or.inr (List.mem_singleton.mp h')

/-- Folding assignments whose keys all differ from `k` leaves the lookup of
`k` unchanged. -/
theorem dictGet?_foldl_dictSet (l : List (α × β)) (base : List (α × β)) (k : α)
    (h : k ∉ l.map Prod.fst) :
    dictGet? (l.foldl (fun r kv => dictSet r kv.1 kv.2) base) k = dictGet? base k := by
  induction l generalizing base with
  | nil => rfl
  | cons kv rest ih =>
    simp only [List.map_cons, List.mem_cons, not_or] at h
    rw [List.foldl_cons, ih _ (by simpa using h.2), dictGet?_dictSet_ne _ _ h.1]

/-- Key coverage of a map built by folding assignments over records. -/
theorem isSome_dictGet?_build {γ : Type} (key : γ → α) (val : γ → β)
    (l : List γ) (init : List (α × β)) (k : α) :
    (dictGet? (l.foldl (fun m f => dictSet m (key f) (val f)) init) k).isSome = true ↔
      (dictGet? init k).isSome = true ∨ k ∈ l.map key := by
  induction l generalizing init with
  | nil => simp
  | cons f rest ih =>
    rw [List.foldl_cons, ih]
    by_cases hk : k = key f
    · subst hk
      simp [dictGet?_dictSet_self]
    · rw [dictGet?_dictSet_ne _ _ hk]
      simp only [List.map_cons, List.mem_cons]
      constructor
      · rintro (ha | hb)
        · exact Or.inl ha
        · exact Or.inr (Or.inr hb)
      · rintro (ha | hb | hc)
        · exact Or.inl ha
        · exact absurd hb hk
        · exact Or.inr hc

end DictLemmas

/-! ## Claim C1 -/

/-- C1 (code bug): evaluation of `format_currency` at the failing input.
The raw value `"EUR2250"` is stripped to `"2250"` and divided by 100, but
the result returned is the bare number 22.5, not a locale-formatted
rendering: source line 315 overwrites the string computed by
`locale.currency` on line 314 with the raw float, contradicting the
function's own docstring and its example comment (`"22,50 €"`).  A value
with no digits does yield the zero default display `"0,00"`; the final
conjunct records that no other rendered string is ever returned, so no
input is rendered with locale-aware formatting. -/
theorem c1_format_currency_returns_bare_number :
    format_currency "EUR2250" = Value.q (45 / 2) ∧
    format_currency "EUR" = Value.s "0,00" ∧
    ∀ v : String, format_currency v = Value.s "0,00" ∨
      ∃ r : ℚ, format_currency v = Value.q r := by
  refine ⟨?_, ?_, ?_⟩
  · have h1 : (List.filter Char.isDigit "EUR2250".data).isEmpty = false := by decide
    have h2 : digitsToNat (List.filter Char.isDigit "EUR2250".data) = 2250 := by decide
    unfold format_currency
    rw [if_neg (by simp [h1]), h2]
    congr 1
    norm_num
  · have h1 : (List.filter Char.isDigit "EUR".data).isEmpty = true := by decide
    unfold format_currency
    rw [if_pos h1]
  · intro v
    unfold format_currency
    by_cases h : (v.data.filter Char.isDigit).isEmpty = true
    · left; rw [if_pos h]
    · right
      exact ⟨(digitsToNat (v.data.filter Char.isDigit) : ℚ) / 100, by rw [if_neg h]⟩

/-! ## Claim C3 -/

/-- C3: the document fetcher is strictly sequential and resilient to a
mid-run page failure.  For a collection answering exactly three pages
(pages 1 and 2 carrying a continuation link, page 3 not), the fetcher
issues exactly 3 page requests and returns the concatenation of the three
result lists, whose length is the sum of the pages' result counts; for a
collection whose second page fails, it returns exactly page 1's results
(after 2 requests) instead of aborting. -/
theorem c3_document_fetch_pagination
    (svc svc' : Nat → ApiPage Doc) (r1 r2 r3 r1' : List Doc) (fuel : Nat)
    (h1 : svc 1 = ⟨200, r1, true⟩) (h2 : svc 2 = ⟨200, r2, true⟩)
    (h3 : svc 3 = ⟨200, r3, false⟩) (hf : 3 ≤ fuel)
    (h1' : svc' 1 = ⟨200, r1', true⟩) (h2' : (svc' 2).status ≠ 200) :
    get_all_documents svc fuel = (r1 ++ r2 ++ r3, 3) ∧
    (get_all_documents svc fuel).1.length = r1.length + r2.length + r3.length ∧
    get_all_documents svc' fuel = (r1', 2) := by
  obtain ⟨k, rfl⟩ : ∃ k, fuel = k + 3 := ⟨fuel - 3, by omega⟩
  have hrun : get_all_documents svc (k + 3) = (r1 ++ r2 ++ r3, 3) := by
    show get_all_documents_from svc (k + 3) 1 = _
    rw [get_all_documents_from, h1]
    rw [get_all_documents_from, h2]
    rw [get_all_documents_from, h3]
    simp [List.append_assoc]
  refine ⟨hrun, by rw [hrun]; simp [List.length_append]; omega, ?_⟩
  have hs : ((svc' 2).status != 200) = true := by simpa using h2'
  show get_all_documents_from svc' (k + 3) 1 = _
  rw [get_all_documents_from, h1']
  rw [get_all_documents_from]
  simp [hs]

/-- Concrete three-page and failing-page services exercising C3. -/
def docA : Doc := ⟨1, "a", [5], []⟩

def docB : Doc := ⟨2, "b", [5], []⟩

def docC : Doc := ⟨3, "c", [5], []⟩

def docD : Doc := ⟨4, "d", [5], []⟩

def svcThreePages : Nat → ApiPage Doc := fun p =>
  if p = 1 then ⟨200, [docA], true⟩
  else if p = 2 then ⟨200, [docB, docC], true⟩
  else ⟨200, [docD], false⟩

def svcFailPage2 : Nat → ApiPage Doc := fun p =>
  if p = 1 then ⟨200, [docA], true⟩ else ⟨500, [], false⟩

/-- Witness for C3 at a concrete three-page collection and a concrete
collection whose page 2 fails. -/
theorem c3_witness :
    get_all_documents svcThreePages 10 = ([docA, docB, docC, docD], 3) ∧
    get_all_documents svcFailPage2 10 = ([docA], 2) := by
  have h := c3_document_fetch_pagination svcThreePages svcFailPage2
    [docA] [docB, docC] [docD] [docA] 10 rfl rfl rfl (by omega) rfl (by decide)
  exact ⟨h.1.trans (by decide), h.2.2⟩

/-! ## Claim C2 -/

/-- First page of a two-page remote custom-field collection; its `next`
continuation link is present. -/
def cfPage1 : ApiPage FieldRec := ⟨200, [⟨1, "Betrag", "monetary", []⟩], true⟩

/-- Second page of the same collection, carrying field 7. -/
def cfPage2 : ApiPage FieldRec := ⟨200, [⟨7, "Status", "select", ["Draft", "Final"]⟩], false⟩

/-- A remote service serving both pages of the custom-field collection. -/
def cfSvcTwoPages : Nat → HttpResponse (ApiPage FieldRec) := fun p =>
  if p = 2 then ⟨200, some cfPage2⟩ else ⟨200, some cfPage1⟩

/-- C2 counterexample: against a two-page custom-field collection whose
first page carries a continuation link, the loader returns a mapping
containing only page 1's field and lacking page 2's field 7 entirely —
the continuation link is never followed, so the returned mapping does not
cover the entire remote collection. -/
theorem c2_counterexample :
    (cfSvcTwoPages 1).body = some cfPage1 ∧ cfPage1.next = true ∧
    (cfSvcTwoPages 2).status = 200 ∧ (cfSvcTwoPages 2).body = some cfPage2 ∧
    cfPage2.results.map FieldRec.id = [7] ∧
    load_custom_fields cfSvcTwoPages = .ok (build_cf_map cfPage1.results) ∧
    dictGet? (build_cf_map cfPage1.results) 7 = none := by
  refine ⟨rfl, rfl, rfl, rfl, rfl, rfl, rfl⟩

/-- C2 (amended): the reference-data loader issues exactly one request per
collection and returns exactly the first page's content, never following a
continuation link: the custom-field mapping's domain is precisely the ids
of page 1's results and the tag mapping's domain is precisely the ids of
page 1's tag records, regardless of what further pages the service
holds. -/
theorem c2_loader_single_page
    (svc : Nat → HttpResponse (ApiPage FieldRec))
    (tsvc : Nat → HttpResponse (ApiPage TagRec))
    (pg : ApiPage FieldRec) (tpg : ApiPage TagRec)
    (h1 : (svc 1).status = 200) (h2 : (svc 1).body = some pg)
    (h3 : (tsvc 1).status = 200) (h4 : (tsvc 1).body = some tpg) :
    load_custom_fields svc = .ok (build_cf_map pg.results) ∧
    load_tag_dict tsvc = some (build_tag_dict tpg.results) ∧
    (∀ fid : Nat, (dictGet? (build_cf_map pg.results) fid).isSome = true ↔
      fid ∈ pg.results.map FieldRec.id) ∧
    (∀ tid : Nat, (dictGet? (build_tag_dict tpg.results) tid).isSome = true ↔
      tid ∈ tpg.results.map TagRec.id) := by
  refine ⟨?_, ?_, ?_, ?_⟩
  · unfold load_custom_fields get_custom_field_definitions
    rw [h2, if_pos (by simp [h1])]
  · unfold load_tag_dict
    simp [h3, h4]
  · intro fid
    unfold build_cf_map
    rw [isSome_dictGet?_build]
    simp [dictGet?]
  · intro tid
    unfold build_tag_dict
    rw [isSome_dictGet?_build]
    simp [dictGet?]

/-- One-page tag collection for the C2 witness. -/
def tagPage1 : ApiPage TagRec := ⟨200, [⟨3, "Invoices"⟩], true⟩

/-- Tag service serving that single page. -/
def tagSvcOne : Nat → HttpResponse (ApiPage TagRec) := fun _ => ⟨200, some tagPage1⟩

/-- Witness for C2 (amended) at concrete services. -/
theorem c2_witness :
    load_custom_fields cfSvcTwoPages = .ok (build_cf_map cfPage1.results) ∧
    load_tag_dict tagSvcOne = some (build_tag_dict tagPage1.results) ∧
    ((dictGet? (build_cf_map cfPage1.results) 1).isSome = true ↔
      1 ∈ cfPage1.results.map FieldRec.id) := by
  have h := c2_loader_single_page cfSvcTwoPages tagSvcOne cfPage1 tagPage1 rfl rfl rfl rfl
  exact ⟨h.1, h.2.1, h.2.2.1 1⟩

/-! ## Claim C4 -/

/-- A well-formed, successful custom-field response (empty schema). -/
def cfRespOk : HttpResponse (ApiPage FieldRec) := ⟨200, some ⟨200, [], false⟩⟩

/-- A tags response whose body fails to decode. -/
def tagsRespBadBody : HttpResponse (ApiPage TagRec) := ⟨200, none⟩

/-- C4 counterexample: when the tags response has status 200 but a
malformed body, the run does abort (uncaught `JSONDecodeError` raised by
`tags_response.json()` on source line 158), but with an empty diagnostic
list — no diagnostic naming the failing endpoint and status is ever
printed, contrary to the claim. -/
theorem c4_counterexample :
    runPreamble cfRespOk tagsRespBadBody "Invoices" =
      ([], .error .uncaughtJson) := rfl

/-- C4 (amended): every schema-load failure halts the run before any
document-page request is issued (the request count is 0), but the
diagnostics differ by case: a custom-field HTTP failure prints a message
naming the endpoint and status and exits, a malformed custom-field body
prints a distinct JSON-error message and exits, a tags HTTP failure prints
a message naming the endpoint and status and then crashes with an uncaught
`NameError` (the source forgets to exit, and `tag_dict` was never
assigned), and a malformed tags body crashes with an uncaught
`JSONDecodeError` printing no diagnostic at all. -/
theorem c4_schema_failure_aborts_before_documents
    (cf : HttpResponse (ApiPage FieldRec)) (tr : HttpResponse (ApiPage TagRec))
    (name : String) (docSvc : Nat → ApiPage Doc) (fuel : Nat) :
    (cf.status ≠ 200 →
      run_main cf tr name docSvc fuel = ([Msg.cfHttp cf.status], 0, .error .exited)) ∧
    (cf.status = 200 → cf.body = none →
      run_main cf tr name docSvc fuel = ([Msg.cfJson], 0, .error .exited)) ∧
    (cf.status = 200 → cf.body ≠ none → tr.status ≠ 200 →
      run_main cf tr name docSvc fuel = ([Msg.tagsHttp tr.status], 0, .error .nameError)) ∧
    (cf.status = 200 → cf.body ≠ none → tr.status = 200 → tr.body = none →
      run_main cf tr name docSvc fuel = ([], 0, .error .uncaughtJson)) := by
  refine ⟨?_, ?_, ?_, ?_⟩
  · intro h
    simp [run_main, runPreamble, get_custom_field_definitions, h]
  · intro h hb
    simp [run_main, runPreamble, get_custom_field_definitions, h, hb]
  · intro h hb htr
    obtain ⟨pg, hpg⟩ := Option.ne_none_iff_exists'.mp hb
    simp [run_main, runPreamble, get_custom_field_definitions, h, hpg, htr]
  · intro h hb htr htb
    obtain ⟨pg, hpg⟩ := Option.ne_none_iff_exists'.mp hb
    simp [run_main, runPreamble, get_custom_field_definitions, h, hpg, htr, htb]

/-- A custom-field response failing at HTTP level. -/
def cfRespHttpFail : HttpResponse (ApiPage FieldRec) := ⟨500, none⟩

/-- A custom-field response with a malformed body. -/
def cfRespBadBody : HttpResponse (ApiPage FieldRec) := ⟨200, none⟩

/-- A successful, well-formed tags response (empty collection). -/
def tagsRespOkEmpty : HttpResponse (ApiPage TagRec) := ⟨200, some ⟨200, [], false⟩⟩

/-- A tags response failing at HTTP level. -/
def tagsRespHttpFail : HttpResponse (ApiPage TagRec) := ⟨503, none⟩

/-- A document service for witnesses (never reached on failing runs). -/
def docSvcEmpty : Nat → ApiPage Doc := fun _ => ⟨200, [], false⟩

/-- Witness for C4 (amended) at concrete responses covering all four
failure modes. -/
theorem c4_witness :
    run_main cfRespHttpFail tagsRespOkEmpty "x" docSvcEmpty 5 =
      ([Msg.cfHttp 500], 0, .error .exited) ∧
    run_main cfRespBadBody tagsRespOkEmpty "x" docSvcEmpty 5 =
      ([Msg.cfJson], 0, .error .exited) ∧
    run_main cfRespOk tagsRespHttpFail "x" docSvcEmpty 5 =
      ([Msg.tagsHttp 503], 0, .error .nameError) ∧
    run_main cfRespOk tagsRespBadBody "x" docSvcEmpty 5 =
      ([], 0, .error .uncaughtJson) := by
  refine ⟨?_, ?_, ?_, ?_⟩
  · exact (c4_schema_failure_aborts_before_documents cfRespHttpFail tagsRespOkEmpty
      "x" docSvcEmpty 5).1 (by decide)
  · exact (c4_schema_failure_aborts_before_documents cfRespBadBody tagsRespOkEmpty
      "x" docSvcEmpty 5).2.1 rfl rfl
  · exact (c4_schema_failure_aborts_before_documents cfRespOk tagsRespHttpFail
      "x" docSvcEmpty 5).2.2.1 rfl (by decide) (by decide)
  · exact (c4_schema_failure_aborts_before_documents cfRespOk tagsRespBadBody
      "x" docSvcEmpty 5).2.2.2 rfl (by decide) rfl rfl

/-! ## Claim C9 -/

/-- C9: the configured tag name is matched against the loaded tag mapping
case-insensitively, the first matching entry being selected; when no entry
matches, or the matching entry's identifier is 0 (Python's `if not tag_id`
confuses id 0 with `None`), the run prints the tag-not-found diagnostic
and exits; otherwise main proceeds with the matched identifier.  The last
conjunct identifies the no-match condition with every entry's name
differing from the query ignoring case. -/
theorem c9_tag_name_matching
    (cf : HttpResponse (ApiPage FieldRec)) (tr : HttpResponse (ApiPage TagRec))
    (name : String) (cfpg : ApiPage FieldRec) (tpg : ApiPage TagRec)
    (hcf : cf.status = 200) (hcfb : cf.body = some cfpg)
    (ht : tr.status = 200) (htb : tr.body = some tpg) :
    ((build_tag_dict tpg.results).find? (fun p => pyLower p.2 == pyLower name) = none →
      runPreamble cf tr name = ([Msg.tagNotFound name], .error .exited)) ∧
    (∀ i nm,
      (build_tag_dict tpg.results).find? (fun p => pyLower p.2 == pyLower name) = some (i, nm) →
      (i = 0 → runPreamble cf tr name = ([Msg.tagNotFound name], .error .exited)) ∧
      (i ≠ 0 → runPreamble cf tr name =
        ([], .ok (build_cf_map cfpg.results, build_tag_dict tpg.results, i)))) ∧
    ((build_tag_dict tpg.results).find? (fun p => pyLower p.2 == pyLower name) = none ↔
      ∀ p ∈ build_tag_dict tpg.results, ¬ pyLower p.2 = pyLower name) := by
  refine ⟨?_, ?_, ?_⟩
  · intro hfind
    simp [runPreamble, get_custom_field_definitions, hcf, hcfb, ht, htb,
      findTagId, hfind]
  · intro i nm hfind
    constructor
    · intro hi
      subst hi
      simp [runPreamble, get_custom_field_definitions, hcf, hcfb, ht, htb,
        findTagId, hfind]
    · intro hi
      simp [runPreamble, get_custom_field_definitions, hcf, hcfb, ht, htb,
        findTagId, hfind, hi]
  · rw [List.find?_eq_none]
    simp

/-- Tags response for the C9 witness: entry 3 named "Invoices" and the
pathological entry with identifier 0. -/
def tagsRespInvoices : HttpResponse (ApiPage TagRec) :=
  ⟨200, some ⟨200, [⟨3, "Invoices"⟩, ⟨0, "zero"⟩], false⟩⟩

/-- Witness for C9: a case-insensitive hit selects id 3 and proceeds; a
name matching no entry aborts with the not-found diagnostic; a name whose
only match carries id 0 aborts the same way. -/
theorem c9_witness :
    runPreamble cfRespOk tagsRespInvoices "INVOICES" =
      ([], .ok ([], [(3, "Invoices"), (0, "zero")], 3)) ∧
    runPreamble cfRespOk tagsRespInvoices "nosuch" =
      ([Msg.tagNotFound "nosuch"], .error .exited) ∧
    runPreamble cfRespOk tagsRespInvoices "ZERO" =
      ([Msg.tagNotFound "ZERO"], .error .exited) := by
  refine ⟨?_, ?_, ?_⟩
  · exact ((c9_tag_name_matching cfRespOk tagsRespInvoices "INVOICES" _ _
      rfl rfl rfl rfl).2.1 3 "Invoices" (by decide)).2 (by decide)
  · exact (c9_tag_name_matching cfRespOk tagsRespInvoices "nosuch" _ _
      rfl rfl rfl rfl).1 (by decide)
  · exact ((c9_tag_name_matching cfRespOk tagsRespInvoices "ZERO" _ _
      rfl rfl rfl rfl).2.1 0 "zero" (by decide)).1 rfl

/-! ## Claim C5 -/

/-- Looking up a position in the enumeration of an option list finds
exactly the entry at that position (or nothing, past the end). -/
theorem find?_pyEnumerateFrom (opts : List String) (n idx : Nat) :
    (pyEnumerateFrom n opts).find?
        (fun p => ((p.1 : Int) == ((n + idx : Nat) : Int))) =
      (opts.get? idx).map (fun l => (n + idx, l)) := by
  induction opts generalizing n idx with
  | nil => rfl
  | cons x xs ih =>
    cases idx with
    | zero =>
      rw [pyEnumerateFrom,
        List.find?_cons_of_pos
          (p := fun p : Nat × String => ((p.1 : Int) == ((n + 0 : Nat) : Int))) _ (by simp)]
      rfl
    | succ k =>
      rw [pyEnumerateFrom,
        List.find?_cons_of_neg
          (p := fun p : Nat × String => ((p.1 : Int) == ((n + (k + 1) : Nat) : Int))) _ (by
            simp only [beq_iff_eq, Nat.cast_inj]
            omega)]
      rw [show n + (k + 1) = (n + 1) + k from by omega]
      simpa [List.get?_cons_succ] using ih (n + 1) k

/-- C5: single-select resolution.  When the field definition is present
with data type `select` and its choices are the enumeration of the option
list, a raw integer index hitting a position of the option list resolves
to that option's label, while an index past the end resolves to the
synthetic placeholder `"Wert <index>"` containing the raw index. -/
theorem c5_select_resolution
    (cfMap : List (Nat × FieldDef)) (fid : Nat) (fd : FieldDef)
    (opts : List String) (idx : Nat)
    (hf : dictGet? cfMap fid = some fd) (ht : fd.ftype = "select")
    (hc : fd.choices = pyEnumerate opts) :
    (∀ label, opts.get? idx = some label →
      resolveCF cfMap ⟨fid, .i (idx : Int)⟩ = (fd.name, .s label)) ∧
    (opts.length ≤ idx →
      resolveCF cfMap ⟨fid, .i (idx : Int)⟩ =
        (fd.name, .s ("Wert " ++ toString (idx : Int)))) := by
  have h0 := find?_pyEnumerateFrom opts 0 idx
  rw [Nat.zero_add] at h0
  have hcg : choiceGet fd.choices (Value.i (idx : Int)) = opts.get? idx := by
    rw [hc]
    show ((pyEnumerateFrom 0 opts).find?
        (fun p => ((p.1 : Int) == (idx : Int)))).map (fun p => p.2) = opts.get? idx
    rw [h0]
    cases opts.get? idx <;> rfl
  constructor
  · intro label hl
    simp only [resolveCF, hf, ht]
    rw [if_neg (by decide), if_pos (by decide), hcg, hl]
  · intro hlen
    have hnone : opts.get? idx = none := List.get?_eq_none.mpr hlen
    simp only [resolveCF, hf, ht]
    rw [if_neg (by decide), if_pos (by decide), hcg, hnone]
    rfl

/-- A concrete select field with the claim's example choice table. -/
def statusFieldRec : FieldRec := ⟨2, "Status", "select", ["Draft", "Final"]⟩

/-- Witness for C5 at the claim's example: index 1 resolves to `"Final"`,
absent index 5 resolves to the placeholder containing 5. -/
theorem c5_witness :
    resolveCF (build_cf_map [statusFieldRec]) ⟨2, .i 1⟩ = ("Status", .s "Final") ∧
    resolveCF (build_cf_map [statusFieldRec]) ⟨2, .i 5⟩ = ("Status", .s "Wert 5") := by
  have h1 := (c5_select_resolution (build_cf_map [statusFieldRec]) 2
    (buildFieldDef statusFieldRec) ["Draft", "Final"] 1 rfl rfl rfl).1 "Final" rfl
  have h2 := (c5_select_resolution (build_cf_map [statusFieldRec]) 2
    (buildFieldDef statusFieldRec) ["Draft", "Final"] 5 rfl rfl rfl).2 (by decide)
  exact ⟨h1, h2⟩

/-! ## Claim C6 -/

/-- C6 counterexample: an identifier absent from the loaded tag mapping
resolves to the synthetic placeholder `"Tag 2"`, not to the `"Unbekannt"`
sentinel that `get_name_from_id` uses for failed reference lookups. -/
theorem c6_counterexample :
    dictGet? [(1, "Rechnung")] 2 = none ∧
    resolveTag [(1, "Rechnung")] 2 = "Tag 2" ∧
    resolveTag [(1, "Rechnung")] 2 ≠ unknownSentinel := ⟨rfl, rfl, by decide⟩

/-- C6 (amended): a tag identifier present in the loaded mapping resolves
to exactly the mapped name; an absent identifier resolves to the synthetic
placeholder `"Tag <id>"` containing the raw identifier (not to the
`"Unbekannt"` sentinel). -/
theorem c6_tag_resolution (d : List (Nat × String)) (tid : Nat) :
    (∀ n, dictGet? d tid = some n → resolveTag d tid = n) ∧
    (dictGet? d tid = none → resolveTag d tid = "Tag " ++ toString tid) := by
  constructor
  · intro n h
    unfold resolveTag
    rw [h]
  · intro h
    unfold resolveTag
    rw [h]

/-- Witness for C6 (amended) at a concrete mapping. -/
theorem c6_witness :
    resolveTag [(4, "Rechnungen")] 4 = "Rechnungen" ∧
    resolveTag [(4, "Rechnungen")] 9 = "Tag 9" :=
  ⟨(c6_tag_resolution [(4, "Rechnungen")] 4).1 "Rechnungen" rfl,
   (c6_tag_resolution [(4, "Rechnungen")] 9).2 rfl⟩

/-! ## Claim C7 -/

/-- A schema whose field 7 is a plain field displayed as "Tags". -/
def tagsNamedFieldMap : List (Nat × FieldDef) := [(7, ⟨"Tags", "string", []⟩)]

/-- A document tagged 1 whose custom field 7 carries the value "x". -/
def docClash : Doc := ⟨11, "Brief", [1], [⟨7, .s "x"⟩]⟩

/-- Tag mapping for the C7 example. -/
def tagDictE : List (Nat × String) := [(1, "Eingang")]

/-- C7 counterexample: the `**custom_fields` merge happens after the fixed
columns are laid down and overwrites colliding keys, so for a document
carrying a custom field whose display name is "Tags", the report row's
"Tags" cell holds the custom-field value `"x"` instead of the comma-joined
display names (`"Eingang"`) of the document's tags. -/
theorem c7_counterexample :
    dictGet? (buildRow tagsNamedFieldMap tagDictE docClash "K" "D" "S"
      (Value.s "01.01.2024")) "Tags" = some (Value.s "x") ∧
    tagsDisplay tagDictE docClash.tags = "Eingang" ∧
    Value.s "x" ≠ Value.s "Eingang" := ⟨rfl, rfl, by decide⟩

/-- C7 (amended): for every exported document none of whose resolved
custom-field display names is "Tags", the report row's "Tags" column
equals the comma-joined display names of exactly the document's tag
identifiers, in stored order (an identifier absent from the mapping
displaying as its `"Tag <id>"` placeholder). -/
theorem c7_tags_column
    (cfMap : List (Nat × FieldDef)) (tagDict : List (Nat × String)) (doc : Doc)
    (korr dtyp spath : String) (datum : Value)
    (h : "Tags" ∉ (buildCustomFields cfMap doc.custom_fields).map Prod.fst) :
    dictGet? (buildRow cfMap tagDict doc korr dtyp spath datum) "Tags" =
      some (.s (tagsDisplay tagDict doc.tags)) := by
  unfold buildRow
  rw [dictGet?_foldl_dictSet _ _ _ h]
  rfl

/-- A well-behaved document for the C7 witness: tags 1 and 2 (2 unmapped),
one custom field displayed under its own name. -/
def docPlain : Doc := ⟨12, "Akte", [1, 2], [⟨7, .s "x"⟩]⟩

/-- Schema for the C7 witness: field 7 displayed as "Notiz". -/
def notizFieldMap : List (Nat × FieldDef) := [(7, ⟨"Notiz", "string", []⟩)]

/-- Witness for C7 (amended): the row's "Tags" cell joins the resolved
names "Eingang" and "Tag 2" with a comma, in the document's tag order. -/
theorem c7_witness :
    dictGet? (buildRow notizFieldMap tagDictE docPlain "K" "D" "S"
      (Value.s "01.01.2024")) "Tags" = some (Value.s "Eingang, Tag 2") :=
  c7_tags_column notizFieldMap tagDictE docPlain "K" "D" "S"
    (Value.s "01.01.2024") (by decide)

/-! ## Claim C8 -/

/-- C8 counterexample: a pre-existing subdirectory is not purged — the
`os.remove` loop raises `IsADirectoryError`, which nothing catches, so the
preparation fails instead of leaving an empty directory. -/
theorem c8_counterexample :
    prepare_tag_directory (some [FsEntry.dir "sub"]) =
      .error ("IsADirectoryError: " ++ "sub") ∧
    prepare_tag_directory (some [FsEntry.dir "sub"]) ≠ .ok [] := by
  refine ⟨rfl, ?_⟩
  intro h
  have h' : (Except.error ("IsADirectoryError: " ++ "sub") :
      Except String (List FsEntry)) = .ok [] := h
  exact Except.noConfusion h'

/-- Removing a list of plain files succeeds. -/
theorem removeEntries_files :
    ∀ (entries : List FsEntry), (∀ e ∈ entries, e.isFile = true) →
      removeEntries entries = .ok ()
  | [], _ => rfl
  | .file _ :: rest, h =>
    removeEntries_files rest (fun e he => h e (List.mem_cons_of_mem _ he))
  | .dir n :: _, h => by
    have hd := h (FsEntry.dir n) (List.mem_cons_self _ _)
    simp [FsEntry.isFile] at hd

/-- C8 (amended): when every pre-existing entry of the tag-scoped output
directory is a plain file, the purge removes them all and the directory is
empty before any artifact is written; a missing directory is created
empty; and since a run's artifacts are all plain files, the purge of a
second run over the first run's output always succeeds with an empty
directory — so two consecutive runs never mix artifacts.  (A pre-existing
subdirectory instead aborts the run with an uncaught error, per the
counterexample.) -/
theorem c8_purge_files
    (entries : List FsEntry) (tid : Nat) (docs : List Doc) (dl : Doc → Bool)
    (h : ∀ e ∈ entries, e.isFile = true) :
    prepare_tag_directory (some entries) = .ok [] ∧
    prepare_tag_directory none = .ok [] ∧
    prepare_tag_directory
      (some ((exportArtifacts tid docs dl).map (fun p => FsEntry.file p.1))) =
        .ok [] := by
  refine ⟨?_, rfl, ?_⟩
  · show (removeEntries entries).map (fun _ => ([] : List FsEntry)) = .ok []
    rw [removeEntries_files entries h]
    rfl
  · show ((removeEntries ((exportArtifacts tid docs dl).map
        (fun p => FsEntry.file p.1))).map (fun _ => ([] : List FsEntry))) = .ok []
    rw [removeEntries_files _ ?_]
    · rfl
    · intro e he
      obtain ⟨p, _, he'⟩ := List.mem_map.mp he
      rw [← he']
      rfl

/-- Witness for C8 (amended) at a concrete pre-existing file listing and a
concrete two-document run. -/
theorem c8_witness :
    prepare_tag_directory (some [FsEntry.file "a.pdf", FsEntry.file "a.json"]) = .ok [] ∧
    prepare_tag_directory none = .ok [] ∧
    prepare_tag_directory
      (some ((exportArtifacts 5 [docA, docB] (fun _ => true)).map
        (fun p => FsEntry.file p.1))) = .ok [] :=
  c8_purge_files [FsEntry.file "a.pdf", FsEntry.file "a.json"] 5 [docA, docB]
    (fun _ => true) (by decide)

/-! ## Claim C10 -/

/-- Appending a common suffix to file-name stems is injective. -/
theorem append_suffix_inj {a b : String} (s : String) (h : a ++ s = b ++ s) :
    a = b := by
  have hd : a.data ++ s.data = b.data ++ s.data := by
    simpa [String.data_append] using congrArg String.data h
  exact String.ext (List.append_cancel_right hd)

/-- A binary-artifact path never coincides with a metadata-artifact path,
whatever the two titles. -/
theorem pdf_path_ne_json_path (a b : String) : a ++ ".pdf" ≠ b ++ ".json" := by
  intro h
  have hd : a.data ++ ".pdf".data = b.data ++ ".json".data := by
    simpa [String.data_append] using congrArg String.data h
  have h1 : (a.data ++ ".pdf".data).getLast? = some 'f' := by
    rw [List.getLast?_append]
    rfl
  have h2 : (b.data ++ ".json".data).getLast? = some 'n' := by
    rw [List.getLast?_append]
    rfl
  rw [hd, h2] at h1
  exact absurd h1 (by decide)

/-- Writing a binary artifact never changes what a metadata-artifact name
resolves to. -/
theorem lookupFS_export_pdf (fs : List (String × Int)) (d : Doc) (b : Bool)
    (t : String) :
    lookupFS (export_pdf fs d b) (t ++ ".json") = lookupFS fs (t ++ ".json") := by
  unfold export_pdf
  cases b
  · rfl
  · exact dictGet?_dictSet_ne _ _ (fun h => pdf_path_ne_json_path d.title t h.symm)

/-- What a metadata-artifact name resolves to after the document loop: the
id of the last processed document carrying the target tag and that title,
or whatever the starting directory held when no such document exists. -/
theorem lookupFS_exportSteps (tid : Nat) (t : String) (dl : Doc → Bool)
    (docs : List Doc) (fs : List (String × Int)) :
    lookupFS (docs.foldl (exportStep tid dl) fs) (t ++ ".json") =
      (match lastMatch tid t docs with
       | some d => some d.id
       | none => lookupFS fs (t ++ ".json")) := by
  induction docs using List.reverseRecOn with
  | nil => rfl
  | append_singleton l d ih =>
    unfold lastMatch at ih ⊢
    rw [List.foldl_append, List.foldl_append]
    simp only [List.foldl_cons, List.foldl_nil]
    by_cases hmatch : tid ∈ d.tags ∧ d.title = t
    · rw [if_pos hmatch]
      show lookupFS (exportStep tid dl (List.foldl (exportStep tid dl) fs l) d)
        (t ++ ".json") = some d.id
      unfold exportStep
      rw [if_pos hmatch.1]
      unfold export_json
      rw [hmatch.2]
      exact dictGet?_dictSet_self _ _ _
    · rw [if_neg hmatch]
      have hstep : lookupFS (exportStep tid dl (List.foldl (exportStep tid dl) fs l) d)
          (t ++ ".json") =
          lookupFS (List.foldl (exportStep tid dl) fs l) (t ++ ".json") := by
        unfold exportStep
        by_cases htag : tid ∈ d.tags
        · rw [if_pos htag]
          unfold export_json
          have hne : (t ++ ".json") ≠ (d.title ++ ".json") := by
            intro he
            exact hmatch ⟨htag, (append_suffix_inj _ he).symm⟩
          unfold lookupFS
          rw [dictGet?_dictSet_ne _ _ hne]
          exact lookupFS_export_pdf _ d (dl d) t
        · rw [if_neg htag]
      rw [hstep, ih]

/-- The artifact directory never holds two files of the same name. -/
theorem nodup_keys_exportArtifacts (tid : Nat) (dl : Doc → Bool)
    (docs : List Doc) :
    ((exportArtifacts tid docs dl).map Prod.fst).Nodup := by
  suffices h : ∀ fs : List (String × Int), (fs.map Prod.fst).Nodup →
      ((docs.foldl (exportStep tid dl) fs).map Prod.fst).Nodup by
    exact h [] (by simp)
  induction docs with
  | nil => exact fun fs hfs => hfs
  | cons d rest ih =>
    intro fs hfs
    rw [List.foldl_cons]
    apply ih
    unfold exportStep
    by_cases htag : tid ∈ d.tags
    · rw [if_pos htag]
      apply nodup_keys_dictSet
      unfold export_pdf
      cases hdl : dl d
      · exact hfs
      · exact nodup_keys_dictSet _ _ _ hfs
    · rwa [if_neg htag]

/-- Every artifact entry stems from a processed tagged document and is
named after that document's title with one of the two extensions. -/
theorem mem_foldl_exportStep (tid : Nat) (dl : Doc → Bool) :
    ∀ (docs : List Doc) (fs : List (String × Int)) (e : String × Int),
      e ∈ docs.foldl (exportStep tid dl) fs →
      e ∈ fs ∨ ∃ d, d ∈ docs ∧ tid ∈ d.tags ∧ e.2 = d.id ∧
        (e.1 = d.title ++ ".pdf" ∨ e.1 = d.title ++ ".json")
  | [], _, _, h => Or.inl h
  | d :: rest, fs, e, h => by
    rcases mem_foldl_exportStep tid dl rest _ e h with h' | ⟨d', hd', hprops⟩
    · unfold exportStep at h'
      by_cases htag : tid ∈ d.tags
      · rw [if_pos htag] at h'
        unfold export_json at h'
        rcases mem_dictSet h' with h'' | h''
        · unfold export_pdf at h''
          by_cases hdl : dl d = true
          · rw [if_pos hdl] at h''
            rcases mem_dictSet h'' with h3 | h3
            · exact Or.inl h3
            · refine Or.inr ⟨d, List.mem_cons_self _ _, htag, ?_, Or.inl ?_⟩ <;>
                rw [h3]
          · rw [if_neg hdl] at h''
            exact Or.inl h''
        · refine Or.inr ⟨d, List.mem_cons_self _ _, htag, ?_, Or.inr ?_⟩ <;>
            rw [h'']
      · rw [if_neg htag] at h'
        exact Or.inl h'
    · exact Or.inr ⟨d', List.mem_cons_of_mem _ hd', hprops⟩

/-- C10: artifact file names are derived solely from document titles.  The
output directory never holds two entries of one name; the metadata
artifact stored under a title is that of the last processed tagged
document bearing the title (so documents sharing a title overwrite each
other's artifacts and at most one artifact pair per distinct title
remains); and every entry present stems from some processed tagged
document, named after its title with the binary or the metadata
extension. -/
theorem c10_artifacts_keyed_by_title (tid : Nat) (docs : List Doc)
    (dl : Doc → Bool) :
    ((exportArtifacts tid docs dl).map Prod.fst).Nodup ∧
    (∀ t : String, lookupFS (exportArtifacts tid docs dl) (t ++ ".json") =
      (match lastMatch tid t docs with
       | some d => some d.id
       | none => none)) ∧
    (∀ e ∈ exportArtifacts tid docs dl, ∃ d, d ∈ docs ∧ tid ∈ d.tags ∧
      e.2 = d.id ∧ (e.1 = d.title ++ ".pdf" ∨ e.1 = d.title ++ ".json")) := by
  refine ⟨nodup_keys_exportArtifacts tid dl docs, ?_, ?_⟩
  · intro t
    rw [show exportArtifacts tid docs dl = docs.foldl (exportStep tid dl) [] from rfl,
      lookupFS_exportSteps tid t dl docs []]
    cases lastMatch tid t docs <;> rfl
  · intro e he
    rcases mem_foldl_exportStep tid dl docs [] e he with h | h
    · exact absurd h (List.not_mem_nil e)
    · exact h

/-- Two documents sharing the title "Scan", both carrying tag 5. -/
def docScan1 : Doc := ⟨21, "Scan", [5], []⟩

/-- The later document with the same title. -/
def docScan2 : Doc := ⟨22, "Scan", [5], []⟩

/-- Witness for C10: after exporting two same-titled documents, the
metadata artifact under that title holds the later document's data, the
directory has no duplicate names, and a concrete entry traces back to a
processed document. -/
theorem c10_witness :
    lookupFS (exportArtifacts 5 [docScan1, docScan2] (fun _ => true))
      ("Scan" ++ ".json") = some 22 ∧
    ((exportArtifacts 5 [docScan1, docScan2] (fun _ => true)).map Prod.fst).Nodup ∧
    (∃ d, d ∈ [docScan1, docScan2] ∧ 5 ∈ d.tags ∧
      (("Scan" ++ ".pdf", (22 : Int)) : String × Int).2 = d.id ∧
      ((("Scan" ++ ".pdf", (22 : Int)) : String × Int).1 = d.title ++ ".pdf" ∨
        (("Scan" ++ ".pdf", (22 : Int)) : String × Int).1 = d.title ++ ".json")) := by
  have h := c10_artifacts_keyed_by_title 5 [docScan1, docScan2] (fun _ => true)
  exact ⟨(h.2.1 "Scan").trans (by decide), h.1,
    h.2.2 ("Scan" ++ ".pdf", (22 : Int)) (by decide)⟩

end TagExporter
